import Mathlib

/-!
Verification of the A15 risk-engine core (FastAPI service `app/main.py` and
its adapters) against its specification.

Modelling conventions:
* Python floats are modelled as rationals (`ℚ`); the constants involved
  (0.65, 0.35, 0.40, 0.10, 0.8, weights 2.0/1.5) are exactly representable,
  so the comparisons in the source behave identically over `ℚ`.
* Python `round(x, n)` uses round-half-to-even; `roundHalfEven` models it.
* Python dict-based raw results are modelled as association lists over a
  small value universe `PyVal`; Python `float(v)` is `pyFloat`, which fails
  (models a raised `TypeError`) on non-numeric values.
* Fallible Python code (code that can raise) returns `Except String _`.
* Truthiness of Python strings/optionals (`a or b`) is modelled explicitly:
  `None` and the empty string are falsy.
-/

namespace A15

/-- Round-half-to-even on rationals, modelling Python's `round` to 0 digits. -/
def roundHalfEven (q : ℚ) : ℤ :=
  let f := ⌊q⌋
  let frac := q - (f : ℚ)
  if frac < 1/2 then f
  else if 1/2 < frac then f + 1
  else if f % 2 = 0 then f else f + 1

/-- Python `round(q, ndigits)` for nonnegative `ndigits`. -/
def roundTo (ndigits : ℕ) (q : ℚ) : ℚ :=
  (roundHalfEven (q * 10 ^ ndigits) : ℚ) / 10 ^ ndigits

theorem le_roundHalfEven (n : ℤ) (q : ℚ) (h : (n : ℚ) ≤ q) :
    n ≤ roundHalfEven q := by
  have hf : n ≤ ⌊q⌋ := Int.le_floor.mpr h
  unfold roundHalfEven
  dsimp only
  split_ifs <;> omega

theorem roundHalfEven_le (n : ℤ) (q : ℚ) (h : q ≤ (n : ℚ)) :
    roundHalfEven q ≤ n := by
  have hfq : (⌊q⌋ : ℚ) ≤ q := Int.floor_le q
  have hf : ⌊q⌋ ≤ n := by
    have := Int.floor_le_floor h
    simpa using this
  unfold roundHalfEven
  dsimp only
  split_ifs with h1 h2 h3
  · exact hf
  · -- frac > 1/2, so q > ⌊q⌋ + 1/2; if ⌊q⌋ = n then frac ≤ 0, contradiction
    by_contra hcon
    have hn : n ≤ ⌊q⌋ := by omega
    have : (n : ℚ) ≤ (⌊q⌋ : ℚ) := by exact_mod_cast hn
    linarith
  · by_contra hcon
    have hn : n ≤ ⌊q⌋ := by omega
    have : (n : ℚ) ≤ (⌊q⌋ : ℚ) := by exact_mod_cast hn
    linarith
  · by_contra hcon
    have hn : n ≤ ⌊q⌋ := by omega
    have : (n : ℚ) ≤ (⌊q⌋ : ℚ) := by exact_mod_cast hn
    linarith

theorem roundTo_nonneg (ndigits : ℕ) (q : ℚ) (h : 0 ≤ q) :
    0 ≤ roundTo ndigits q := by
  unfold roundTo
  have hq : (0 : ℚ) ≤ q * 10 ^ ndigits := by positivity
  have := le_roundHalfEven 0 (q * 10 ^ ndigits) (by exact_mod_cast hq)
  have hr : (0 : ℚ) ≤ (roundHalfEven (q * 10 ^ ndigits) : ℚ) := by exact_mod_cast this
  positivity

theorem roundTo_le (ndigits : ℕ) (q : ℚ) (n : ℤ) (h : q ≤ (n : ℚ)) :
    roundTo ndigits q ≤ (n : ℚ) := by
  unfold roundTo
  have hpow : (0 : ℚ) < 10 ^ ndigits := by positivity
  have hq : q * 10 ^ ndigits ≤ (n : ℚ) * 10 ^ ndigits := by
    exact mul_le_mul_of_nonneg_right h (le_of_lt hpow)
  have hcast : ((n * 10 ^ ndigits : ℤ) : ℚ) = (n : ℚ) * 10 ^ ndigits := by push_cast; ring
  have := roundHalfEven_le (n * 10 ^ ndigits) (q * 10 ^ ndigits) (by rw [hcast]; exact hq)
  have hr : (roundHalfEven (q * 10 ^ ndigits) : ℚ) ≤ (n : ℚ) * 10 ^ ndigits := by
    calc (roundHalfEven (q * 10 ^ ndigits) : ℚ) ≤ ((n * 10 ^ ndigits : ℤ) : ℚ) := by exact_mod_cast this
    _ = (n : ℚ) * 10 ^ ndigits := hcast
  rw [div_le_iff₀ hpow]
  linarith

/-! ## `decide` — the decision-tier function (`app/main.py`, lines 34–39) -/

/-- `def decide(total)`: `total >= 0.65 → "auto_block"`,
`total >= 0.35 → "manual_review"`, else `"auto_pass"`. -/
def decide (total : ℚ) : String :=
  if total ≥ 65/100 then "auto_block"
  else if total ≥ 35/100 then "manual_review"
  else "auto_pass"

/-! ## Value universe for raw adapter results -/

/-- Values appearing in the adapters' raw result dicts: numbers, lists of
strings (the moderation `hits`), and Python `None`. -/
inductive PyVal where
  | num (q : ℚ)
  | listv (l : List String)
  | nil
deriving DecidableEq

/-- Association-list model of a Python dict with string keys. -/
abbrev RawMap := List (String × PyVal)

/-- Python `raw.get(k, dflt)`. -/
def rawGet (raw : RawMap) (k : String) (dflt : PyVal) : PyVal :=
  match raw.lookup k with
  | some v => v
  | none => dflt

/-- Python `float(v)` on our value universe: numbers pass through unchanged
(no clamping); lists and `None` raise `TypeError`. -/
def pyFloat : PyVal → Except String ℚ
  | .num q => .ok q
  | .listv _ => .error "TypeError: float() argument must be a number"
  | .nil => .error "TypeError: float() argument must be a number, not NoneType"

/-- Payload passed to an adapter's `run`; `none` = key absent. -/
structure Payload where
  text : Option String := none
  prompt : Option String := none

/-- Python `a or b` where `a` is an optional string: `None` and `""` are
falsy, so they fall through to `b`. -/
def orElseStr (a : Option String) (b : String) : String :=
  match a with
  | some s => if s = "" then b else s
  | none => b

/-- Python substring containment `needle in hay` on character lists. -/
def containsSub (hay needle : List Char) : Bool :=
  (List.range (hay.length + 1)).any fun i => ((hay.drop i).take needle.length) == needle

/-! ## PlagiarismAdapter (`app/adapters/plag.py`) -/

/-- `PlagiarismAdapter.run`: `ratio = min(len(text) / 2000.0, 1.0)`. -/
def PlagiarismAdapter.run (payload : Payload) : RawMap :=
  let text := payload.text.getD ""
  let ratio := min ((text.length : ℚ) / 2000) 1
  [("ratio", .num ratio)]

/-- `PlagiarismAdapter.normalize`: `float(raw.get("ratio", 0.0))`. -/
def PlagiarismAdapter.normalize (raw : RawMap) : Except String ℚ :=
  pyFloat (rawGet raw "ratio" (.num 0))

/-! ## ModerationAdapter (`app/adapters/moderation.py`) -/

/-- The fixed banned-term set (a Python set literal; modelled in literal
order — no claim depends on iteration order). -/
def BANNED : List String := ["殺害", "テロ", "差別", "違法", "児童", "暴力"]

/-- Raw output of `ModerationAdapter.run` before packing into a map. -/
structure ModOut where
  severity : ℚ
  hits : List String
deriving DecidableEq

/-- `ModerationAdapter.run`:
`text = ((payload or {}).get("text") or (payload or {}).get("prompt") or "")`;
`hits = [w for w in BANNED if w in text]`; `severity = 0.8 if hits else 0.0`.
Note the `or` chain: the prompt is consulted only when the text is absent
or empty. -/
def ModerationAdapter.runOut (payload : Payload) : ModOut :=
  let text := orElseStr payload.text (orElseStr payload.prompt "")
  let hits := BANNED.filter fun w => containsSub text.data w.data
  { severity := if hits ≠ [] then 8/10 else 0, hits := hits }

/-- `ModerationAdapter.run` packed as the raw dict `{"severity": ..., "hits": ...}`. -/
def ModerationAdapter.run (payload : Payload) : RawMap :=
  let o := ModerationAdapter.runOut payload
  [("severity", .num o.severity), ("hits", .listv o.hits)]

/-- `ModerationAdapter.normalize`: `float(raw.get("severity", 0.0))`. -/
def ModerationAdapter.normalize (raw : RawMap) : Except String ℚ :=
  pyFloat (rawGet raw "severity" (.num 0))

/-! ## `check_text` endpoint (`app/main.py`, lines 51–71) -/

/-- Risk part of a `CheckResponse`. -/
structure Risk where
  total : ℚ
  level : String
deriving DecidableEq

/-- `check_text`: runs the plagiarism and moderation adapters, weights the
normalized scores by `{"Plagiarism": 0.40, "Moderation": 0.10}`, sums, and
maps the (unrounded) total through `decide`; the reported total is rounded
to 4 digits. -/
def check_text (text : String) (prompt : Option String) : Except String Risk := do
  let raw_plag := PlagiarismAdapter.run { text := some text }
  let raw_mod := ModerationAdapter.run { text := some text, prompt := prompt }
  let sPlag ← PlagiarismAdapter.normalize raw_plag
  let sMod ← ModerationAdapter.normalize raw_mod
  let total := sPlag * (40/100) + sMod * (10/100)
  pure { total := roundTo 4 total, level := decide total }

/-! ## Image similarity (`app/adapters/web_search.py`, `_open_image`,
`_hash_sim`, `_ssim_score`, `_score_pair`) -/

/-- Number of set bits of a natural number (perceptual hashes are 64-bit
vectors; `h1 - h2` in `imagehash` is the Hamming distance, i.e. the
popcount of the XOR). -/
def popCount (n : ℕ) : ℕ :=
  if n = 0 then 0 else n % 2 + popCount (n / 2)
termination_by n
decreasing_by simp_wf; omega

/-- Environment abstracting the image libraries used by `_score_pair`:
decoding (`PIL.Image.open(...).convert("RGB")`, `none` = raises), the three
64-bit perceptual hashes, and the raw SSIM value on the 256×256 grayscale
resizes. `imagehashAvail` / `ssimAvail` model whether the optional imports
at the top of the file succeeded. -/
structure ImgEnv where
  pillowAvail : Bool
  imagehashAvail : Bool
  ssimAvail : Bool
  decode : List ℕ → Option ℕ
  phash : ℕ → ℕ
  dhash : ℕ → ℕ
  ahash : ℕ → ℕ
  rawSsim : ℕ → ℕ → ℚ

/-- `_open_image`: raises if Pillow is missing, raises if the bytes do not
decode, else yields the decoded RGB image. -/
def open_image (env : ImgEnv) (b : List ℕ) : Except String ℕ :=
  if env.pillowAvail = false then .error "Pillow not installed. pip install pillow imagehash"
  else
    match env.decode b with
    | some im => .ok im
    | none => .error "PIL.UnidentifiedImageError: cannot identify image file"

/-- `_hash_sim(h1, h2) = max(0.0, min(1.0, 1.0 - dist / 64.0))` where `dist`
is the Hamming distance of the two 64-bit hashes. -/
def hash_sim (h1 h2 : ℕ) : ℚ :=
  max 0 (min 1 (1 - (popCount (h1 ^^^ h2) : ℚ) / 64))

/-- `_ssim_score`: `None` when skimage/cv2/numpy are unavailable, else the
SSIM of the two 256×256 grayscale resizes clamped to `[0,1]`. -/
def ssim_score (env : ImgEnv) (a b : ℕ) : Option ℚ :=
  if env.ssimAvail then some (max 0 (min 1 (env.rawSsim a b))) else none

/-- The `(sims, ws)` term list built by `_score_pair`: the three hash
similarities (weights 2.0, 1.5, 1.5) when `imagehash` is available, plus
the SSIM term (weight 2.0) when available. -/
def scoreTerms (env : ImgEnv) (im1 im2 : ℕ) : List (ℚ × ℚ) :=
  (if env.imagehashAvail then
    [(hash_sim (env.phash im1) (env.phash im2), (2 : ℚ)),
     (hash_sim (env.dhash im1) (env.dhash im2), 3/2),
     (hash_sim (env.ahash im1) (env.ahash im2), 3/2)]
   else []) ++
  (match ssim_score env im1 im2 with
   | some v => [(v, 2)]
   | none => [])

/-- `_score_pair(original, candidate)`: decode both images (raising on
failure), build the weighted term list, return `0.0` when it is empty, else
`round(weighted_average * 100, 2)`. -/
def score_pair (env : ImgEnv) (original_bytes candidate_bytes : List ℕ) : Except String ℚ :=
  match open_image env original_bytes with
  | .error e => .error e
  | .ok im1 =>
    match open_image env candidate_bytes with
    | .error e => .error e
    | .ok im2 =>
      let terms := scoreTerms env im1 im2
      if terms.isEmpty then .ok 0
      else
        let score01 := (terms.map fun p => p.1 * p.2).sum / (terms.map fun p => p.2).sum
        .ok (roundTo 2 (score01 * 100))

/-! ## Web search collector (`app/adapters/web_search.py`, `WebSearchAdapter`) -/

/-- Python truthiness of `os.getenv(...)`-style values: `None` and the empty
string are falsy. -/
def pyTruthy : Option String → Bool
  | none => false
  | some s => s != ""

/-- Python `a or b` on two optional strings (`None`/`""` falsy). -/
def orElseOpt (a b : Option String) : Option String :=
  match a with
  | some s => if s = "" then b else some s
  | none => b

/-- One raw `organic_results` entry from the backend. -/
structure OrganicItem where
  title : Option String := none
  link : Option String := none
  urlKey : Option String := none
  snippet : Option String := none
  position : Option ℕ := none
deriving DecidableEq

/-- A result row built by `search_text`:
`{"title": ..., "url": item.get("link") or item.get("url"), "snippet": ..., "position": ...}`. -/
structure SearchItem where
  title : Option String
  url : Option String
  snippet : String
  position : Option ℕ
deriving DecidableEq

def toSearchItem (it : OrganicItem) : SearchItem :=
  { title := it.title, url := orElseOpt it.link it.urlKey,
    snippet := it.snippet.getD "", position := it.position }

/-- One page of the paginated backend response: the `organic_results` list
and whether `serpapi_pagination.next` is present. -/
structure PageData where
  organic : List OrganicItem
  hasNext : Bool

/-- The pagination loop of `search_text`:
`while len(results) < num and start <= 50: fetch(start); extend; if no next: break; start += 10`.
Returns the accumulated raw rows and the number of backend requests made.
Structural fuel replaces the `start`-based termination argument: called with
`fuel = 6` and `start = 0`, the invariant `start = 10 * (6 - fuel)` makes the
`start ≤ 50` guard fail no later than the fuel runs out, so the translation
is exact. -/
def fetchLoop (backend : ℕ → PageData) (num : ℕ) :
    ℕ → ℕ → List SearchItem → List SearchItem × ℕ
  | 0, _, results => (results, 0)
  | fuel + 1, start, results =>
    if results.length < num ∧ start ≤ 50 then
      let data := backend start
      let results2 := results ++ data.organic.map toSearchItem
      if data.hasNext then
        let r := fetchLoop backend num fuel (start + 10) results2
        (r.1, r.2 + 1)
      else (results2, 1)
    else (results, 0)

/-- The deduplication loop of `search_text` (and of `websearch.py`'s
`search`): skip rows whose url is `None`, empty, or already seen; append the
row; break once `num` rows are kept. -/
def dedupLoop (num : ℕ) : List SearchItem → List String → ℕ → List SearchItem
  | [], _, _ => []
  | it :: rest, seen, count =>
    match it.url with
    | none => dedupLoop num rest seen count
    | some u =>
      if u = "" ∨ u ∈ seen then dedupLoop num rest seen count
      else if count + 1 ≥ num then [it]
      else it :: dedupLoop num rest (u :: seen) (count + 1)

/-- `WebSearchAdapter.search_text`: empty when the SerpAPI key is unset,
otherwise paginate then deduplicate/truncate. Second component: number of
backend page requests (a ghost observer of the network effect). -/
def search_text (serp_key : Option String) (backend : ℕ → PageData) (num : ℕ) :
    List SearchItem × ℕ :=
  if pyTruthy serp_key = false then ([], 0)
  else
    let fetched := fetchLoop backend num 6 0 []
    (dedupLoop num fetched.1 [] 0, fetched.2)

/-! ### `search_image_by_url` (Google Lens via SerpAPI) -/

/-- One `visual_matches` entry of the Lens response. -/
structure LensItem where
  link : Option String := none
  image : Option String := none
  thumbnail : Option String := none
deriving DecidableEq

/-- The fields of the Lens response that `search_image_by_url` reads. -/
structure LensData where
  visual_matches : List LensItem := []
  kg_source_links : List (Option String) := []

/-- A `similar_images` row of `search_image_by_url`. -/
structure SimPos where
  url : String
  thumbnail : String
  position : ℕ
deriving DecidableEq

/-- The `visual_matches` loop of `search_image_by_url`:
`u = it.get("link") or it.get("image") or ""`; skip when `u` is empty;
append `{url, thumbnail, position: idx + 1}`; break once `max_results` rows
are kept. Note: no deduplication is performed. -/
def collectMatches (max_results : ℕ) : ℕ → ℕ → List LensItem → List SimPos
  | _, _, [] => []
  | count, idx, it :: rest =>
    let u := orElseStr it.link (orElseStr it.image "")
    let thumb := orElseStr it.thumbnail (orElseStr it.image "")
    if u = "" then collectMatches max_results count (idx + 1) rest
    else
      let entry : SimPos := ⟨u, thumb, idx + 1⟩
      if count + 1 ≥ max_results then [entry]
      else entry :: collectMatches max_results (count + 1) (idx + 1) rest

structure LensResult where
  similar_images : List SimPos
  pages : List String
deriving DecidableEq

/-- `WebSearchAdapter.search_image_by_url`: empty result when the SerpAPI
key is unset; otherwise the `visual_matches` rows (no dedup) and the
`knowledge_graph.source` links. -/
def search_image_by_url (serp_key : Option String) (lens : String → LensData)
    (image_url : String) (max_results : ℕ) : LensResult :=
  if pyTruthy serp_key = false then { similar_images := [], pages := [] }
  else
    let data := lens image_url
    { similar_images := collectMatches max_results 0 0 data.visual_matches,
      pages := (data.kg_source_links.filterMap id).filter (· != "") }

/-! ### `search_and_score_image_bytes` (Vision web detection + local scoring) -/

/-- The `webDetection` fields read from the Vision response; each entry is
the optional `url` of an item. -/
structure WebDetection where
  fullMatchingImages : List (Option String) := []
  partialMatchingImages : List (Option String) := []
  visuallySimilarImages : List (Option String) := []
  pagesWithMatchingImages : List (Option String) := []

/-- Inner candidate-dedup loop over one group: skip falsy/seen urls, append,
break at `max_results`. Returns (kept urls, updated seen set, updated count). -/
def candGroup (maxr : ℕ) : List String → List String → ℕ → List String × List String × ℕ
  | [], seen, count => ([], seen, count)
  | u :: rest, seen, count =>
    if u = "" ∨ u ∈ seen then candGroup maxr rest seen count
    else if count + 1 ≥ maxr then ([u], u :: seen, count + 1)
    else
      let r := candGroup maxr rest (u :: seen) (count + 1)
      (u :: r.1, r.2.1, r.2.2)

/-- Outer loop over the groups `(fulls, partials, visually)`, with the outer
`if len(candidates) >= max_results: break` after each group. -/
def candAll (maxr : ℕ) : List (List String) → List String → ℕ → List String
  | [], _, _ => []
  | grp :: grps, seen, count =>
    let r := candGroup maxr grp seen count
    if r.2.2 ≥ maxr then r.1
    else r.1 ++ candAll maxr grps r.2.1 r.2.2

/-- A scored `similar_images` row (candidates set `thumbnail` to the url). -/
structure SimItem where
  url : String
  thumbnail : String
  score : ℚ
deriving DecidableEq

/-- Part (B) of `search_and_score_image_bytes`: download each candidate
(`_fetch_image_bytes`, `none` = failure); `if not cand: continue` drops both
failures and empty bodies; score via `_score_pair`, with a caught exception
recorded as score `0.0`; the row is appended either way. -/
def scoreLoop (ienv : ImgEnv) (fetch : String → Option (List ℕ)) (orig : List ℕ) :
    List String → List SimItem
  | [] => []
  | url :: rest =>
    match fetch url with
    | none => scoreLoop ienv fetch orig rest
    | some cand =>
      if cand = [] then scoreLoop ienv fetch orig rest
      else
        let sim := match score_pair ienv orig cand with
          | .ok s => s
          | .error _ => 0
        ⟨url, url, sim⟩ :: scoreLoop ienv fetch orig rest

/-- `max([x["score"] for x in items], default=0.0)`. -/
def maxScore (l : List SimItem) : ℚ :=
  match l.map SimItem.score with
  | [] => 0
  | x :: xs => xs.foldl max x

structure ScoreResult where
  similar_images : List SimItem
  pages : List String
  max_score : ℚ
deriving DecidableEq

/-- The external-world inputs of `WebSearchAdapter`: the two API keys and
the responses of the Vision backend, the Lens backend, and the per-url
image fetch. -/
structure WebEnv where
  serp_key : Option String
  vision_key : Option String
  lens : String → LensData
  vision : List ℕ → WebDetection
  fetch : String → Option (List ℕ)
  img : ImgEnv

/-- `WebSearchAdapter.search_and_score_image_bytes`: raises when the Vision
key is unset; otherwise collect candidate urls from the three web-detection
groups (dedup with cap), download and score each candidate, sort by score
descending, and report `max_score`. -/
def search_and_score_image_bytes (env : WebEnv) (image_bytes : List ℕ)
    (max_results : ℕ) : Except String ScoreResult :=
  if pyTruthy env.vision_key = false then .error "VISION_API_KEY is not set"
  else
    let wd := env.vision image_bytes
    let fulls := (wd.fullMatchingImages.filterMap id).filter (· != "")
    let partials := (wd.partialMatchingImages.filterMap id).filter (· != "")
    let visually := (wd.visuallySimilarImages.filterMap id).filter (· != "")
    let pages := (wd.pagesWithMatchingImages.filterMap id).filter (· != "")
    let candidates := candAll max_results [fulls, partials, visually] [] 0
    let items := scoreLoop env.img env.fetch image_bytes candidates
    let sorted := items.mergeSort fun a b => Decidable.decide (b.score ≤ a.score)
    .ok { similar_images := sorted, pages := pages, max_score := maxScore sorted }

/-- `ReverseImageSearchAdapter.__init__`: raises when `SERPAPI_KEY` is
unset. -/
def reverseImageSearchInit (serpapi_key : Option String) : Except String Unit :=
  if pyTruthy serpapi_key = false then .error "SERPAPI_KEY is required" else .ok ()

/-! ## `check_image_webscore` endpoint (`app/main.py`, lines 98–129) -/

structure EvidenceRow where
  source : String
  score : ℚ
  url : String
deriving DecidableEq

structure WebscorePayload where
  risk : Risk
  threshold_version : String
  similar_images : List SimItem
  evidence : List EvidenceRow
deriving DecidableEq

/-- `check_image_webscore`: calls `search_and_score_image_bytes`, adopts
`max_score` as the risk total verbatim (never passed through `decide`), and
always reports level `"manual_review"`. -/
def check_image_webscore (env : WebEnv) (file_bytes : List ℕ) (top_k : ℕ) :
    Except String WebscorePayload :=
  match search_and_score_image_bytes env file_bytes top_k with
  | .error e => .error e
  | .ok result =>
    .ok { risk := { total := result.max_score, level := "manual_review" },
          threshold_version := "vision+hash",
          similar_images := result.similar_images,
          evidence := result.pages.map fun p => ⟨"gcv_web_pages", 0, p⟩ }

/-! ## Concrete environments used as test vectors -/

/-- All image libraries present but the bytes do not decode (a corrupt or
unsupported image: `PIL.Image.open` raises). -/
def corruptImgEnv : ImgEnv :=
  { pillowAvail := true, imagehashAvail := true, ssimAvail := true,
    decode := fun _ => none, phash := fun _ => 0, dhash := fun _ => 0,
    ahash := fun _ => 0, rawSsim := fun _ _ => 0 }

/-- Everything available; all hashes collide and SSIM is 1 (identical
images), so every similarity term is 1. -/
def idealImgEnv : ImgEnv :=
  { pillowAvail := true, imagehashAvail := true, ssimAvail := true,
    decode := fun _ => some 0, phash := fun _ => 0, dhash := fun _ => 0,
    ahash := fun _ => 0, rawSsim := fun _ _ => 1 }

/-- Pillow present and images decode, but neither `imagehash` nor the SSIM
stack imported — no similarity term is computable. -/
def bareImgEnv : ImgEnv :=
  { pillowAvail := true, imagehashAvail := false, ssimAvail := false,
    decode := fun _ => some 0, phash := fun _ => 0, dhash := fun _ => 0,
    ahash := fun _ => 0, rawSsim := fun _ _ => 0 }

/-- Spec scenario 3: reverse-image search yields candidate URLs `[A, A, B]`;
fetching `A` succeeds (and it scores 100 against the original), fetching `B`
fails. -/
def scenarioEnvAAB : WebEnv :=
  { serp_key := some "k", vision_key := some "k", lens := fun _ => {},
    vision := fun _ => { fullMatchingImages := [some "A", some "A", some "B"] },
    fetch := fun u => if u = "A" then some [1] else none,
    img := idealImgEnv }

/-- A candidate ("C") that downloads fine but whose bytes fail to decode. -/
def decodeFailEnv : WebEnv :=
  { serp_key := some "k", vision_key := some "k", lens := fun _ => {},
    vision := fun _ => { fullMatchingImages := [some "C"] },
    fetch := fun _ => some [1],
    img := corruptImgEnv }

/-- No API keys at all. -/
def noKeyEnv : WebEnv :=
  { serp_key := none, vision_key := none, lens := fun _ => {},
    vision := fun _ => {}, fetch := fun _ => none, img := corruptImgEnv }

/-- A backend whose every page has 10 organic results and a next page. -/
def b10 : ℕ → PageData := fun _ =>
  { organic := List.replicate 10 { link := some "u" }, hasNext := true }

/-- A Lens backend returning the same URL twice among `visual_matches`. -/
def dupLens : String → LensData := fun _ =>
  { visual_matches := [{ link := some "A" }, { link := some "A" }] }

/-! ## Helper lemmas -/

theorem severity_cases (payload : Payload) :
    (ModerationAdapter.runOut payload).severity = 8/10 ∨
      (ModerationAdapter.runOut payload).severity = 0 := by
  simp only [ModerationAdapter.runOut]
  split_ifs <;> simp

theorem hash_sim_nonneg (h1 h2 : ℕ) : 0 ≤ hash_sim h1 h2 := le_max_left 0 _

theorem hash_sim_le_one (h1 h2 : ℕ) : hash_sim h1 h2 ≤ 1 :=
  max_le zero_le_one (min_le_left 1 _)

/-! ## C1 — decision thresholds -/

/-- C1: `decide` maps a total to a tier with exactly the thresholds 0.65 and
0.35, and the six probe totals 0.0, 0.34, 0.35, 0.64, 0.65, 1.0 yield
auto_pass, auto_pass, manual_review, manual_review, auto_block, auto_block. -/
theorem C1_decide_thresholds :
    (∀ total : ℚ, 65/100 ≤ total → decide total = "auto_block") ∧
    (∀ total : ℚ, 35/100 ≤ total → total < 65/100 → decide total = "manual_review") ∧
    (∀ total : ℚ, total < 35/100 → decide total = "auto_pass") ∧
    decide 0 = "auto_pass" ∧ decide (34/100) = "auto_pass" ∧
    decide (35/100) = "manual_review" ∧ decide (64/100) = "manual_review" ∧
    decide (65/100) = "auto_block" ∧ decide 1 = "auto_block" := by
  refine ⟨fun t h => ?_, fun t h1 h2 => ?_, fun t h => ?_, ?_, ?_, ?_, ?_, ?_, ?_⟩
  · simp only [decide, ge_iff_le]
    rw [if_pos h]
  · simp only [decide, ge_iff_le]
    rw [if_neg (by linarith), if_pos h1]
  · simp only [decide, ge_iff_le]
    rw [if_neg (by linarith), if_neg (by linarith)]
  all_goals norm_num [decide]

/-- Witness for C1: applies each threshold branch at a concrete total. -/
theorem C1_decide_thresholds_witness :
    ((65:ℚ)/100 ≤ 7/10 ∧ decide (7/10) = "auto_block") ∧
    ((35:ℚ)/100 ≤ 1/2 ∧ (1:ℚ)/2 < 65/100 ∧ decide (1/2) = "manual_review") ∧
    ((1:ℚ)/10 < 35/100 ∧ decide (1/10) = "auto_pass") :=
  ⟨⟨by norm_num, C1_decide_thresholds.1 (7/10) (by norm_num)⟩,
   ⟨by norm_num, by norm_num, C1_decide_thresholds.2.1 (1/2) (by norm_num) (by norm_num)⟩,
   ⟨by norm_num, C1_decide_thresholds.2.2.1 (1/10) (by norm_num)⟩⟩

/-! ## C6 — moderation scan -/

/-- C6 counterexample: the claim says a banned term present only in the
prompt (with non-empty text) yields severity 0.8; the code scans
`payload.get("text") or payload.get("prompt")`, so with non-empty text the
prompt is never scanned and the severity is 0.0. -/
theorem C6_prompt_ignored_counterexample :
    (ModerationAdapter.runOut { text := some "hello", prompt := some "テロ" }).severity = 0 ∧
    (0:ℚ) ≠ 8/10 :=
  ⟨rfl, by norm_num⟩

/-- C6 (amended): the moderation adapter scans the text — falling back to
the prompt only when the text is absent or empty — for banned-term
substrings; severity is 0.8 exactly when some banned term occurs, and is
always 0.8 or 0.0; the matched terms are returned under `"hits"`; and with
non-empty text the prompt is ignored entirely. -/
theorem C6_moderation_scan (payload : Payload) :
    ((ModerationAdapter.runOut payload).severity = 8/10 ↔
      ∃ w ∈ BANNED,
        containsSub (orElseStr payload.text (orElseStr payload.prompt "")).data w.data = true) ∧
    ((ModerationAdapter.runOut payload).severity = 8/10 ∨
      (ModerationAdapter.runOut payload).severity = 0) ∧
    (ModerationAdapter.run payload).lookup "hits" =
      some (.listv (ModerationAdapter.runOut payload).hits) ∧
    (∀ t p, t ≠ "" →
      ModerationAdapter.runOut { text := some t, prompt := some p } =
        ModerationAdapter.runOut { text := some t, prompt := none }) := by
  refine ⟨?_, severity_cases payload, rfl, fun t p ht => ?_⟩
  · simp only [ModerationAdapter.runOut]
    split_ifs with h
    · refine iff_of_true rfl ?_
      obtain ⟨w, hw⟩ := List.exists_mem_of_ne_nil _ h
      rw [List.mem_filter] at hw
      exact ⟨w, hw.1, hw.2⟩
    · rw [not_not] at h
      refine iff_of_false (by norm_num) ?_
      rintro ⟨w, hwB, hwP⟩
      have : w ∈ BANNED.filter fun w =>
          containsSub (orElseStr payload.text (orElseStr payload.prompt "")).data w.data :=
        List.mem_filter.mpr ⟨hwB, hwP⟩
      rw [h] at this
      exact absurd this (List.not_mem_nil w)
  · simp only [ModerationAdapter.runOut, orElseStr, if_neg ht]

/-- Witness for C6: with text "abc" the prompt (here a banned term) is
ignored. -/
theorem C6_moderation_scan_witness :
    ModerationAdapter.runOut { text := some "abc", prompt := some "テロ" } =
      ModerationAdapter.runOut { text := some "abc", prompt := none } :=
  (C6_moderation_scan { text := some "abc", prompt := some "テロ" }).2.2.2 "abc" "テロ"
    (by decide)

/-! ## C7 — normalize range -/

/-- C7 counterexample: `normalize` does not clamp — a raw map carrying
`ratio = 2.0` normalizes to 2.0, outside `[0,1]`; and a raw map carrying a
non-numeric value under the well-known key raises (`float(None)`) instead
of coercing to 0.0. -/
theorem C7_normalize_counterexample :
    PlagiarismAdapter.normalize [("ratio", PyVal.num 2)] = Except.ok 2 ∧
    ¬ ((2:ℚ) ≤ 1) ∧
    ModerationAdapter.normalize [("severity", PyVal.nil)] =
      Except.error "TypeError: float() argument must be a number, not NoneType" :=
  ⟨rfl, by norm_num, rfl⟩

/-- C7 (amended): `normalize` coerces a missing key to 0.0, and on every raw
map produced by the adapter's own `run` it returns a score in `[0,1]`;
arbitrary raw maps are passed through `float()` unclamped. -/
theorem C7_normalize_run_range (payload : Payload) :
    PlagiarismAdapter.normalize [] = Except.ok 0 ∧
    ModerationAdapter.normalize [] = Except.ok 0 ∧
    (∃ q : ℚ, PlagiarismAdapter.normalize (PlagiarismAdapter.run payload) = Except.ok q ∧
      0 ≤ q ∧ q ≤ 1) ∧
    (∃ q : ℚ, ModerationAdapter.normalize (ModerationAdapter.run payload) = Except.ok q ∧
      0 ≤ q ∧ q ≤ 1) := by
  refine ⟨rfl, rfl, ⟨_, rfl, ?_, ?_⟩, ⟨_, rfl, ?_, ?_⟩⟩
  · exact le_min (by positivity) zero_le_one
  · exact min_le_right _ _
  · rcases severity_cases payload with h | h <;> norm_num [h]
  · rcases severity_cases payload with h | h <;> norm_num [h]

/-! ## C9 — text check never auto-blocks -/

/-- C9: for every text and prompt, the weighted total fed to `decide` is
`min(len(text)/2000, 1) * 0.40 + severity * 0.10` with severity 0.0 or 0.8,
hence at most 0.48, and the level is never `auto_block`. -/
theorem C9_check_text_no_autoblock (text : String) (prompt : Option String) :
    ∃ sev : ℚ, (sev = 0 ∨ sev = 8/10) ∧
      check_text text prompt = Except.ok
        { total := roundTo 4 (min ((text.length : ℚ) / 2000) 1 * (40/100) + sev * (10/100)),
          level := decide (min ((text.length : ℚ) / 2000) 1 * (40/100) + sev * (10/100)) } ∧
      min ((text.length : ℚ) / 2000) 1 * (40/100) + sev * (10/100) ≤ 48/100 ∧
      decide (min ((text.length : ℚ) / 2000) 1 * (40/100) + sev * (10/100)) ≠ "auto_block" := by
  refine ⟨(ModerationAdapter.runOut { text := some text, prompt := prompt }).severity,
    (severity_cases _).elim Or.inr Or.inl, rfl, ?_, ?_⟩
  · have h1 : min ((text.length : ℚ) / 2000) 1 ≤ 1 := min_le_right _ _
    have h0 : (0:ℚ) ≤ min ((text.length : ℚ) / 2000) 1 := le_min (by positivity) zero_le_one
    rcases severity_cases { text := some text, prompt := prompt } with h | h <;> rw [h] <;>
      linarith
  · have h1 : min ((text.length : ℚ) / 2000) 1 ≤ 1 := min_le_right _ _
    have h0 : (0:ℚ) ≤ min ((text.length : ℚ) / 2000) 1 := le_min (by positivity) zero_le_one
    have hb : min ((text.length : ℚ) / 2000) 1 * (40/100) +
        (ModerationAdapter.runOut { text := some text, prompt := prompt }).severity * (10/100) ≤
        48/100 := by
      rcases severity_cases { text := some text, prompt := prompt } with h | h <;> rw [h] <;>
        linarith
    simp only [decide, ge_iff_le]
    rw [if_neg (by intro hc; linarith)]
    split_ifs <;> decide

/-! ## C2 — image similarity scoring -/

theorem scoreTerms_bounds (env : ImgEnv) (i1 i2 : ℕ) :
    ∀ p ∈ scoreTerms env i1 i2, (0 ≤ p.1 ∧ p.1 ≤ 1) ∧ 0 < p.2 := by
  intro p hp
  rw [scoreTerms] at hp
  rcases List.mem_append.mp hp with h | h
  · cases hih : env.imagehashAvail
    · rw [hih] at h
      simp only [Bool.false_eq_true, if_false] at h
      exact absurd h (List.not_mem_nil p)
    · rw [hih] at h
      simp only [if_true, List.mem_cons, List.not_mem_nil, or_false] at h
      rcases h with rfl | rfl | rfl <;>
        exact ⟨⟨hash_sim_nonneg _ _, hash_sim_le_one _ _⟩, by norm_num⟩
  · rw [ssim_score] at h
    cases hss : env.ssimAvail
    · rw [hss] at h
      simp only [Bool.false_eq_true, if_false] at h
      exact absurd h (List.not_mem_nil p)
    · rw [hss] at h
      simp only [if_true, List.mem_singleton] at h
      subst h
      exact ⟨⟨le_max_left 0 _, max_le zero_le_one (min_le_left 1 _)⟩, by norm_num⟩

theorem scoreTerms_eq_nil_iff (env : ImgEnv) (i1 i2 : ℕ) :
    scoreTerms env i1 i2 = [] ↔
      env.imagehashAvail = false ∧ env.ssimAvail = false := by
  cases hih : env.imagehashAvail <;> cases hss : env.ssimAvail <;>
    simp [scoreTerms, ssim_score, hih, hss]

theorem weighted_avg_bounds (terms : List (ℚ × ℚ)) (hne : terms ≠ [])
    (hb : ∀ p ∈ terms, (0 ≤ p.1 ∧ p.1 ≤ 1) ∧ 0 < p.2) :
    0 ≤ (terms.map fun p => p.1 * p.2).sum / (terms.map fun p => p.2).sum ∧
      (terms.map fun p => p.1 * p.2).sum / (terms.map fun p => p.2).sum ≤ 1 := by
  have hw : 0 < (terms.map fun p => p.2).sum := by
    match terms, hne with
    | p :: rest, _ =>
      simp only [List.map_cons, List.sum_cons]
      have hp1 : 0 < p.2 := (hb p (List.mem_cons_self p rest)).2
      have hp2 : 0 ≤ (rest.map fun p => p.2).sum := by
        apply List.sum_nonneg
        intro x hx
        obtain ⟨q, hq, rfl⟩ := List.mem_map.mp hx
        exact le_of_lt (hb q (List.mem_cons_of_mem p hq)).2
      linarith
  have hnum0 : 0 ≤ (terms.map fun p => p.1 * p.2).sum := by
    apply List.sum_nonneg
    intro x hx
    obtain ⟨q, hq, rfl⟩ := List.mem_map.mp hx
    exact mul_nonneg (hb q hq).1.1 (le_of_lt (hb q hq).2)
  have hle : (terms.map fun p => p.1 * p.2).sum ≤ (terms.map fun p => p.2).sum := by
    apply List.sum_le_sum
    intro p hp
    have h := hb p hp
    nlinarith [h.1.2, h.2, h.1.1]
  exact ⟨div_nonneg hnum0 (le_of_lt hw), (div_le_one hw).mpr hle⟩

/-- C2 counterexample: on undecodable bytes `_score_pair` raises (via
`Image.open`) instead of returning 0.0. -/
theorem C2_corrupt_image_counterexample :
    score_pair corruptImgEnv [0] [0] =
      Except.error "PIL.UnidentifiedImageError: cannot identify image file" ∧
    score_pair corruptImgEnv [0] [0] ≠ Except.ok 0 := by
  refine ⟨rfl, ?_⟩
  intro h
  rw [(rfl : score_pair corruptImgEnv [0] [0] =
      Except.error "PIL.UnidentifiedImageError: cannot identify image file")] at h
  exact Except.noConfusion h

/-- C2 (amended): whenever both images decode, `score_pair` succeeds with a
value in `[0,100]` obtained by weighting the available similarity terms
(p-hash 2.0, d-hash 1.5, average-hash 1.5, SSIM 2.0), averaging, scaling by
100 and rounding to two decimals; when no term is computable (both hash and
SSIM libraries unavailable) the result is 0.0. An undecodable image instead
raises (caught by the caller). -/
theorem C2_score_pair_ok (env : ImgEnv) (ob cb : List ℕ) (i1 i2 : ℕ)
    (hp : env.pillowAvail = true)
    (h1 : env.decode ob = some i1) (h2 : env.decode cb = some i2) :
    ∃ r : ℚ, score_pair env ob cb = Except.ok r ∧ 0 ≤ r ∧ r ≤ 100 ∧
      (env.imagehashAvail = false ∧ env.ssimAvail = false → r = 0) ∧
      (env.imagehashAvail = true ∨ env.ssimAvail = true →
        r = roundTo 2 ((((scoreTerms env i1 i2).map fun p => p.1 * p.2).sum /
            ((scoreTerms env i1 i2).map fun p => p.2).sum) * 100)) := by
  have hopen1 : open_image env ob = Except.ok i1 := by simp [open_image, hp, h1]
  have hopen2 : open_image env cb = Except.ok i2 := by simp [open_image, hp, h2]
  have hsp : score_pair env ob cb =
      (if (scoreTerms env i1 i2).isEmpty then Except.ok 0
       else Except.ok (roundTo 2 ((((scoreTerms env i1 i2).map fun p => p.1 * p.2).sum /
            ((scoreTerms env i1 i2).map fun p => p.2).sum) * 100))) := by
    rw [score_pair, hopen1, hopen2]
  by_cases hE : scoreTerms env i1 i2 = []
  · refine ⟨0, ?_, le_refl 0, by norm_num, fun _ => rfl, fun hav => ?_⟩
    · rw [hsp, if_pos (by rw [hE]; rfl)]
    · exact absurd ((scoreTerms_eq_nil_iff env i1 i2).mp hE)
        (by rcases hav with hav | hav <;> simp [hav])
  · have havg := weighted_avg_bounds (scoreTerms env i1 i2) hE (scoreTerms_bounds env i1 i2)
    refine ⟨roundTo 2 ((((scoreTerms env i1 i2).map fun p => p.1 * p.2).sum /
        ((scoreTerms env i1 i2).map fun p => p.2).sum) * 100), ?_, ?_, ?_, ?_, fun _ => rfl⟩
    · rw [hsp, if_neg (by simpa [List.isEmpty_iff] using hE)]
    · exact roundTo_nonneg 2 _ (by nlinarith [havg.1])
    · have h100 : (((scoreTerms env i1 i2).map fun p => p.1 * p.2).sum /
          ((scoreTerms env i1 i2).map fun p => p.2).sum) * 100 ≤ ((100 : ℤ) : ℚ) := by
        push_cast
        nlinarith [havg.2]
      have := roundTo_le 2 _ 100 h100
      exact le_trans this (by norm_num)
    · intro hboth
      exact absurd ((scoreTerms_eq_nil_iff env i1 i2).mpr hboth) hE

/-- Witness for C2: a decodable pair with no computable similarity term
scores 0.0. -/
theorem C2_score_pair_ok_witness :
    ∃ r : ℚ, score_pair bareImgEnv [0] [0] = Except.ok r ∧ 0 ≤ r ∧ r ≤ 100 ∧
      (bareImgEnv.imagehashAvail = false ∧ bareImgEnv.ssimAvail = false → r = 0) ∧
      (bareImgEnv.imagehashAvail = true ∨ bareImgEnv.ssimAvail = true →
        r = roundTo 2 ((((scoreTerms bareImgEnv 0 0).map fun p => p.1 * p.2).sum /
            ((scoreTerms bareImgEnv 0 0).map fun p => p.2).sum) * 100)) :=
  C2_score_pair_ok bareImgEnv [0] [0] 0 0 rfl rfl rfl

/-! ## Deduplication lemmas -/

theorem dedupLoop_url_shape (num : ℕ) (raw : List SearchItem) :
    ∀ (seen : List String) (count : ℕ) it, it ∈ dedupLoop num raw seen count →
      ∃ u, it.url = some u ∧ u ∉ seen ∧ u ≠ "" := by
  induction raw with
  | nil => intro seen count it hit; simp [dedupLoop] at hit
  | cons a rest ih =>
    intro seen count it hit
    rw [dedupLoop] at hit
    cases ha : a.url with
    | none =>
      rw [ha] at hit
      exact ih seen count it hit
    | some u =>
      rw [ha] at hit
      simp only [] at hit
      by_cases hskip : u = "" ∨ u ∈ seen
      · rw [if_pos hskip] at hit
        exact ih seen count it hit
      · rw [if_neg hskip] at hit
        push_neg at hskip
        by_cases hbreak : count + 1 ≥ num
        · rw [if_pos hbreak] at hit
          rw [List.mem_singleton] at hit
          subst hit
          exact ⟨u, ha, hskip.2, hskip.1⟩
        · rw [if_neg hbreak] at hit
          rcases List.mem_cons.mp hit with rfl | hmem
          · exact ⟨u, ha, hskip.2, hskip.1⟩
          · obtain ⟨u', hu', hnotin, hne⟩ := ih (u :: seen) (count + 1) it hmem
            exact ⟨u', hu', fun hc => hnotin (List.mem_cons_of_mem u hc), hne⟩

theorem dedupLoop_nodup (num : ℕ) (raw : List SearchItem) :
    ∀ (seen : List String) (count : ℕ),
      ((dedupLoop num raw seen count).filterMap SearchItem.url).Nodup := by
  induction raw with
  | nil => intro seen count; simp [dedupLoop]
  | cons a rest ih =>
    intro seen count
    rw [dedupLoop]
    cases ha : a.url with
    | none => exact ih seen count
    | some u =>
      simp only []
      by_cases hskip : u = "" ∨ u ∈ seen
      · rw [if_pos hskip]
        exact ih seen count
      · rw [if_neg hskip]
        by_cases hbreak : count + 1 ≥ num
        · rw [if_pos hbreak]
          simp [ha]
        · rw [if_neg hbreak]
          rw [List.filterMap_cons, ha]
          rw [List.nodup_cons]
          refine ⟨?_, ih (u :: seen) (count + 1)⟩
          intro hc
          obtain ⟨it, hit, hurl⟩ := List.mem_filterMap.mp hc
          obtain ⟨u', hu', hnotin, -⟩ := dedupLoop_url_shape num rest (u :: seen) (count + 1) it hit
          rw [hu'] at hurl
          cases hurl
          exact hnotin (List.mem_cons_self u seen)

theorem dedupLoop_length (num : ℕ) (raw : List SearchItem) :
    ∀ (seen : List String) (count : ℕ), count < num →
      (dedupLoop num raw seen count).length ≤ num - count := by
  induction raw with
  | nil => intro seen count h; simp [dedupLoop]
  | cons a rest ih =>
    intro seen count h
    rw [dedupLoop]
    cases a.url with
    | none => exact ih seen count h
    | some u =>
      simp only []
      by_cases hskip : u = "" ∨ u ∈ seen
      · rw [if_pos hskip]
        exact ih seen count h
      · rw [if_neg hskip]
        by_cases hbreak : count + 1 ≥ num
        · rw [if_pos hbreak]
          simp only [List.length_singleton]
          omega
        · rw [if_neg hbreak]
          have := ih (u :: seen) (count + 1) (by omega)
          simp only [List.length_cons]
          omega

theorem dedupLoop_find? (num : ℕ) (raw : List SearchItem) :
    ∀ (seen : List String) (count : ℕ) it, it ∈ dedupLoop num raw seen count →
      raw.find? (fun x => x.url == it.url) = some it := by
  induction raw with
  | nil => intro seen count it hit; simp [dedupLoop] at hit
  | cons a rest ih =>
    intro seen count it hit
    rw [dedupLoop] at hit
    cases ha : a.url with
    | none =>
      rw [ha] at hit
      obtain ⟨u', hu', -, -⟩ := dedupLoop_url_shape num rest seen count it hit
      rw [List.find?_cons_of_neg _ (by simp [ha, hu'])]
      exact ih seen count it hit
    | some u =>
      rw [ha] at hit
      simp only [] at hit
      by_cases hskip : u = "" ∨ u ∈ seen
      · rw [if_pos hskip] at hit
        obtain ⟨u', hu', hnotin, hne⟩ := dedupLoop_url_shape num rest seen count it hit
        have hneq : u ≠ u' := by
          rcases hskip with hskip | hskip
          · intro hc; exact hne (hc ▸ hskip)
          · intro hc; exact hnotin (hc ▸ hskip)
        rw [List.find?_cons_of_neg _ (by simp [ha, hu', hneq])]
        exact ih seen count it hit
      · rw [if_neg hskip] at hit
        by_cases hbreak : count + 1 ≥ num
        · rw [if_pos hbreak] at hit
          rw [List.mem_singleton] at hit
          subst hit
          rw [List.find?_cons_of_pos _ (by simp)]
        · rw [if_neg hbreak] at hit
          rcases List.mem_cons.mp hit with rfl | hmem
          · rw [List.find?_cons_of_pos _ (by simp)]
          · obtain ⟨u', hu', hnotin, -⟩ :=
              dedupLoop_url_shape num rest (u :: seen) (count + 1) it hmem
            have hneq : u ≠ u' := fun hc => hnotin (hc ▸ List.mem_cons_self u seen)
            rw [List.find?_cons_of_neg _ (by simp [ha, hu', hneq])]
            exact ih (u :: seen) (count + 1) it hmem

/-! ## Candidate-collection lemmas -/

theorem candGroup_spec (maxr : ℕ) (grp : List String) :
    ∀ (seen : List String) (count : ℕ),
      (∀ u ∈ (candGroup maxr grp seen count).1, u ∉ seen) ∧
      (candGroup maxr grp seen count).1.Nodup ∧
      (∀ u ∈ seen, u ∈ (candGroup maxr grp seen count).2.1) ∧
      (∀ u ∈ (candGroup maxr grp seen count).1, u ∈ (candGroup maxr grp seen count).2.1) := by
  induction grp with
  | nil => intro seen count; simp [candGroup]
  | cons u rest ih =>
    intro seen count
    rw [candGroup]
    by_cases hskip : u = "" ∨ u ∈ seen
    · rw [if_pos hskip]
      exact ih seen count
    · rw [if_neg hskip]
      push_neg at hskip
      by_cases hbreak : count + 1 ≥ maxr
      · rw [if_pos hbreak]
        refine ⟨?_, List.nodup_singleton u, ?_, ?_⟩
        · intro v hv
          rw [List.mem_singleton] at hv
          subst hv
          exact hskip.2
        · intro v hv
          exact List.mem_cons_of_mem u hv
        · intro v hv
          rw [List.mem_singleton] at hv
          subst hv
          exact List.mem_cons_self v seen
      · rw [if_neg hbreak]
        dsimp only
        obtain ⟨ih1, ih2, ih3, ih4⟩ := ih (u :: seen) (count + 1)
        refine ⟨?_, ?_, ?_, ?_⟩
        · intro v hv
          rcases List.mem_cons.mp hv with rfl | hv
          · exact hskip.2
          · exact fun hc => (ih1 v hv) (List.mem_cons_of_mem u hc)
        · rw [List.nodup_cons]
          exact ⟨fun hc => (ih1 u hc) (List.mem_cons_self u seen), ih2⟩
        · intro v hv
          exact ih3 v (List.mem_cons_of_mem u hv)
        · intro v hv
          rcases List.mem_cons.mp hv with rfl | hv
          · exact ih3 v (List.mem_cons_self v seen)
          · exact ih4 v hv

theorem candAll_nodup (maxr : ℕ) (grps : List (List String)) :
    ∀ (seen : List String) (count : ℕ),
      (∀ u ∈ candAll maxr grps seen count, u ∉ seen) ∧
      (candAll maxr grps seen count).Nodup := by
  induction grps with
  | nil => intro seen count; simp [candAll]
  | cons grp grps ih =>
    intro seen count
    rw [candAll]
    obtain ⟨g1, g2, g3, g4⟩ := candGroup_spec maxr grp seen count
    by_cases hb : (candGroup maxr grp seen count).2.2 ≥ maxr
    · rw [if_pos hb]
      exact ⟨g1, g2⟩
    · rw [if_neg hb]
      obtain ⟨a1, a2⟩ := ih (candGroup maxr grp seen count).2.1 (candGroup maxr grp seen count).2.2
      refine ⟨?_, ?_⟩
      · intro v hv
        rcases List.mem_append.mp hv with hv | hv
        · exact g1 v hv
        · exact fun hc => (a1 v hv) (g3 v hc)
      · rw [List.nodup_append]
        refine ⟨g2, a2, ?_⟩
        intro v hv hv2
        exact (a1 v hv2) (g4 v hv)

/-! ## Score-loop lemmas -/

theorem scoreLoop_eq_filterMap (ienv : ImgEnv) (fetch : String → Option (List ℕ))
    (orig : List ℕ) (cands : List String) :
    scoreLoop ienv fetch orig cands = cands.filterMap fun url =>
      match fetch url with
      | none => none
      | some cand =>
        if cand = [] then none
        else some ⟨url, url,
          match score_pair ienv orig cand with
          | .ok s => s
          | .error _ => 0⟩ := by
  induction cands with
  | nil => rfl
  | cons url rest ih =>
    cases hf : fetch url with
    | none => simp [scoreLoop, List.filterMap_cons, hf, ih]
    | some cand =>
      by_cases hc : cand = []
      · simp [scoreLoop, List.filterMap_cons, hf, hc, ih]
      · simp [scoreLoop, List.filterMap_cons, hf, hc, ih]

theorem scoreLoop_map_url_sublist (ienv : ImgEnv) (fetch : String → Option (List ℕ))
    (orig : List ℕ) (cands : List String) :
    ((scoreLoop ienv fetch orig cands).map SimItem.url).Sublist cands := by
  induction cands with
  | nil => simp [scoreLoop]
  | cons url rest ih =>
    rw [scoreLoop]
    cases hf : fetch url with
    | none => exact ih.cons url
    | some cand =>
      simp only []
      by_cases hc : cand = []
      · rw [if_pos hc]
        exact ih.cons url
      · rw [if_neg hc]
        rw [List.map_cons]
        exact ih.cons₂ url

/-! ## Pagination lemmas -/

theorem fetchLoop_requests_le (backend : ℕ → PageData) (num : ℕ) :
    ∀ (fuel start : ℕ) (results : List SearchItem),
      (fetchLoop backend num fuel start results).2 ≤ fuel := by
  intro fuel
  induction fuel with
  | zero => intro start results; simp [fetchLoop]
  | succ f ih =>
    intro start results
    rw [fetchLoop]
    by_cases hg : results.length < num ∧ start ≤ 50
    · rw [if_pos hg]
      simp only []
      by_cases hn : (backend start).hasNext = true
      · rw [if_pos hn]
        simp only []
        exact Nat.succ_le_succ (ih (start + 10) _)
      · rw [if_neg hn]
        omega
    · rw [if_neg hg]
      omega

theorem fetchLoop_length_le (backend : ℕ → PageData) (num : ℕ)
    (hpg : ∀ s, (backend s).organic.length ≤ 10) :
    ∀ (fuel start : ℕ) (results : List SearchItem),
      (fetchLoop backend num fuel start results).1.length ≤ results.length + 10 * fuel := by
  intro fuel
  induction fuel with
  | zero => intro start results; simp [fetchLoop]
  | succ f ih =>
    intro start results
    rw [fetchLoop]
    by_cases hg : results.length < num ∧ start ≤ 50
    · rw [if_pos hg]
      simp only []
      by_cases hn : (backend start).hasNext = true
      · rw [if_pos hn]
        simp only []
        have hrec := ih (start + 10) (results ++ (backend start).organic.map toSearchItem)
        have hlen : (results ++ (backend start).organic.map toSearchItem).length ≤
            results.length + 10 := by
          simp only [List.length_append, List.length_map]
          have := hpg start
          omega
        omega
      · rw [if_neg hn]
        simp only [List.length_append, List.length_map]
        have := hpg start
        omega
    · rw [if_neg hg]
      simp only []
      omega

theorem fetchLoop_requests_uniform (backend : ℕ → PageData) (num : ℕ)
    (hu : ∀ s, (backend s).organic.length = 10 ∧ (backend s).hasNext = true) :
    ∀ (fuel start : ℕ) (results : List SearchItem), start = 10 * (6 - fuel) → fuel ≤ 6 →
      (fetchLoop backend num fuel start results).2 =
        min ((num - results.length + 9) / 10) fuel := by
  intro fuel
  induction fuel with
  | zero => intro start results h1 h2; simp [fetchLoop]
  | succ f ih =>
    intro start results hstart hfuel
    rw [fetchLoop]
    have hs50 : start ≤ 50 := by omega
    by_cases hlen : results.length < num
    · rw [if_pos ⟨hlen, hs50⟩]
      simp only []
      rw [if_pos (hu start).2]
      simp only []
      rw [ih (start + 10) (results ++ (backend start).organic.map toSearchItem)
        (by omega) (by omega)]
      have hlen2 : (results ++ (backend start).organic.map toSearchItem).length =
          results.length + 10 := by
        simp only [List.length_append, List.length_map]
        rw [(hu start).1]
      rw [hlen2]
      simp only [Nat.min_def]
      split_ifs <;> omega
    · rw [if_neg (by tauto)]
      simp only [Nat.min_def]
      split_ifs <;> omega

/-! ## C4 — text-search pagination -/

/-- C4 counterexample: with requested count 60 (and a backend that always
has a next page) the loop issues six page requests (start 0,10,...,50) and
accumulates 60 raw rows — beyond the claimed "at most 5 pages (at most 50
raw results)". -/
theorem C4_pagination_counterexample :
    (search_text (some "k") b10 60).2 = 6 ∧
    (fetchLoop b10 60 6 0 []).1.length = 60 ∧
    ¬ ((6 : ℕ) ≤ 5) ∧ ¬ ((60 : ℕ) ≤ 50) :=
  ⟨rfl, rfl, by omega, by omega⟩

/-- C4 (amended): text search paginates the backend requesting at most 6
pages (start 0,10,...,50; at most 60 raw rows when pages hold ≤ 10 results),
stops early once the requested count is reached (with 10-result pages the
request count is exactly `min ((num+9)/10) 6`), and the returned list is
deduplicated by URL in first-seen order and truncated to the requested
count. -/
theorem C4_search_text_spec (serp_key : Option String) (backend : ℕ → PageData) (num : ℕ) :
    (search_text serp_key backend num).2 ≤ 6 ∧
    ((∀ s, (backend s).organic.length ≤ 10) →
      (fetchLoop backend num 6 0 []).1.length ≤ 60) ∧
    ((search_text serp_key backend num).1.filterMap SearchItem.url).Nodup ∧
    (search_text serp_key backend num).1.length ≤ num ∧
    ((∀ s, (backend s).organic.length = 10 ∧ (backend s).hasNext = true) →
      pyTruthy serp_key = true →
      (search_text serp_key backend num).2 = min ((num + 9) / 10) 6) := by
  rw [search_text]
  by_cases hkey : pyTruthy serp_key = false
  · rw [if_pos hkey]
    refine ⟨by omega, ?_, by simp, by simp, ?_⟩
    · intro hpg
      have := fetchLoop_length_le backend num hpg 6 0 []
      simpa using this
    · intro _ htrue
      rw [hkey] at htrue
      exact absurd htrue (by simp)
  · rw [if_neg hkey]
    refine ⟨fetchLoop_requests_le backend num 6 0 [], ?_, ?_, ?_, ?_⟩
    · intro hpg
      have := fetchLoop_length_le backend num hpg 6 0 []
      simpa using this
    · exact dedupLoop_nodup num (fetchLoop backend num 6 0 []).1 [] 0
    · by_cases hnum : num = 0
      · subst hnum
        rw [(rfl : fetchLoop backend 0 6 0 [] = ([], 0))]
        simp [dedupLoop]
      · exact le_trans (dedupLoop_length num (fetchLoop backend num 6 0 []).1 [] 0
          (by omega)) (by omega)
    · intro hu _
      have := fetchLoop_requests_uniform backend num hu 6 0 [] (by omega) (by omega)
      simpa using this

/-- Witness for C4: the uniform 10-per-page backend with requested count 20
stops after exactly two page requests, within the six-page cap. -/
theorem C4_search_text_spec_witness :
    (search_text (some "k") b10 20).2 ≤ 6 ∧
    (fetchLoop b10 20 6 0 []).1.length ≤ 60 ∧
    (search_text (some "k") b10 20).2 = min ((20 + 9) / 10) 6 := by
  have h := C4_search_text_spec (some "k") b10 20
  have hu : ∀ s, (b10 s).organic.length = 10 ∧ (b10 s).hasNext = true := fun s =>
    ⟨by simp [b10], rfl⟩
  exact ⟨h.1, h.2.1 fun s => le_of_eq (hu s).1, h.2.2.2.2 hu rfl⟩

/-! ## Concrete evaluations -/

theorem score_pair_ideal_eval : score_pair idealImgEnv [0] [1] = Except.ok 100 := by
  simp [score_pair, open_image, idealImgEnv, scoreTerms, ssim_score, hash_sim, popCount]
  norm_num [roundTo, roundHalfEven]

theorem scoreLoop_AAB : scoreLoop scenarioEnvAAB.img scenarioEnvAAB.fetch [0] ["A", "B"] =
    [⟨"A", "A", 100⟩] := by
  rw [scoreLoop_eq_filterMap]
  simp only [scenarioEnvAAB, List.filterMap_cons, List.filterMap_nil]
  norm_num [score_pair_ideal_eval]
  decide

theorem scenarioAAB_eval :
    search_and_score_image_bytes scenarioEnvAAB [0] 20 =
      Except.ok { similar_images := [⟨"A", "A", 100⟩], pages := [], max_score := 100 } := by
  rw [search_and_score_image_bytes]
  rw [if_neg (by decide)]
  simp only []
  have hcand : candAll 20
      [(((scenarioEnvAAB.vision [0]).fullMatchingImages.filterMap id).filter (· != "")),
       (((scenarioEnvAAB.vision [0]).partialMatchingImages.filterMap id).filter (· != "")),
       (((scenarioEnvAAB.vision [0]).visuallySimilarImages.filterMap id).filter (· != ""))]
      [] 0 = ["A", "B"] := rfl
  rw [hcand, scoreLoop_AAB]
  simp [List.mergeSort, maxScore, scenarioEnvAAB]

theorem scoreLoop_C : scoreLoop decodeFailEnv.img decodeFailEnv.fetch [0] ["C"] =
    [⟨"C", "C", 0⟩] := rfl

theorem decodeFail_eval :
    search_and_score_image_bytes decodeFailEnv [0] 20 =
      Except.ok { similar_images := [⟨"C", "C", 0⟩], pages := [], max_score := 0 } := by
  rw [search_and_score_image_bytes]
  rw [if_neg (by decide)]
  simp only []
  have hcand : candAll 20
      [(((decodeFailEnv.vision [0]).fullMatchingImages.filterMap id).filter (· != "")),
       (((decodeFailEnv.vision [0]).partialMatchingImages.filterMap id).filter (· != "")),
       (((decodeFailEnv.vision [0]).visuallySimilarImages.filterMap id).filter (· != ""))]
      [] 0 = ["C"] := rfl
  rw [hcand, scoreLoop_C]
  simp [List.mergeSort, maxScore, decodeFailEnv]

/-! ## C3 — URL deduplication invariant -/

/-- C3 counterexample: `search_image_by_url` performs no deduplication — a
backend response listing the same URL twice yields two rows with the same
URL. -/
theorem C3_lens_no_dedup_counterexample :
    (search_image_by_url (some "k") dupLens "img" 20).similar_images =
      [⟨"A", "", 1⟩, ⟨"A", "", 2⟩] ∧
    ¬ ((search_image_by_url (some "k") dupLens "img" 20).similar_images.map
        SimPos.url).Nodup := by
  have he : (search_image_by_url (some "k") dupLens "img" 20).similar_images =
      [⟨"A", "", 1⟩, ⟨"A", "", 2⟩] := rfl
  refine ⟨he, ?_⟩
  rw [he]
  decide

/-- C3 (amended): URL deduplication with first-occurrence-wins holds for
text search (the kept row for each URL is the first raw row carrying it) and
for the scored reverse-image search from bytes; `search_image_by_url`
returns the backend's candidate rows without deduplication. -/
theorem C3_dedup_invariant (serp_key : Option String) (backend : ℕ → PageData) (num : ℕ)
    (env : WebEnv) (bytes : List ℕ) (maxr : ℕ) (res : ScoreResult)
    (hres : search_and_score_image_bytes env bytes maxr = Except.ok res) :
    ((search_text serp_key backend num).1.filterMap SearchItem.url).Nodup ∧
    (∀ it ∈ (search_text serp_key backend num).1,
      (fetchLoop backend num 6 0 []).1.find? (fun x => x.url == it.url) = some it) ∧
    (res.similar_images.map SimItem.url).Nodup := by
  refine ⟨?_, ?_, ?_⟩
  · rw [search_text]
    by_cases hkey : pyTruthy serp_key = false
    · rw [if_pos hkey]
      simp
    · rw [if_neg hkey]
      exact dedupLoop_nodup num _ [] 0
  · rw [search_text]
    by_cases hkey : pyTruthy serp_key = false
    · rw [if_pos hkey]
      intro it hit
      simp at hit
    · rw [if_neg hkey]
      intro it hit
      exact dedupLoop_find? num _ [] 0 it hit
  · rw [search_and_score_image_bytes] at hres
    by_cases hv : pyTruthy env.vision_key = false
    · rw [if_pos hv] at hres
      exact absurd hres (by simp)
    · rw [if_neg hv] at hres
      simp only [] at hres
      rw [Except.ok.injEq] at hres
      subst hres
      have hperm := List.mergeSort_perm
        (scoreLoop env.img env.fetch bytes (candAll maxr
          [(((env.vision bytes).fullMatchingImages.filterMap id).filter (· != "")),
           (((env.vision bytes).partialMatchingImages.filterMap id).filter (· != "")),
           (((env.vision bytes).visuallySimilarImages.filterMap id).filter (· != ""))] [] 0))
        (fun a b => Decidable.decide (b.score ≤ a.score))
      have hmap := hperm.map SimItem.url
      apply hmap.symm.nodup
      exact List.Nodup.sublist (scoreLoop_map_url_sublist env.img env.fetch bytes _)
        (candAll_nodup maxr _ [] 0).2

/-- Witness for C3: dedup invariant at a concrete backend and the concrete
scored result of the `[A,A,B]` scenario. -/
theorem C3_dedup_invariant_witness :
    ((search_text (some "k") b10 20).1.filterMap SearchItem.url).Nodup ∧
    (([⟨"A", "A", (100:ℚ)⟩] : List SimItem).map SimItem.url).Nodup :=
  ⟨(C3_dedup_invariant (some "k") b10 20 scenarioEnvAAB [0] 20
      { similar_images := [⟨"A", "A", 100⟩], pages := [], max_score := 100 }
      scenarioAAB_eval).1,
   (C3_dedup_invariant (some "k") b10 20 scenarioEnvAAB [0] 20
      { similar_images := [⟨"A", "A", 100⟩], pages := [], max_score := 100 }
      scenarioAAB_eval).2.2⟩

/-! ## C5 — candidate fetch/decode failure handling -/

/-- C5 counterexample: candidate "C" downloads successfully but its bytes
fail to decode; it is NOT dropped — the result ranks it with score 0.0. -/
theorem C5_decode_failure_counterexample :
    search_and_score_image_bytes decodeFailEnv [0] 20 =
      Except.ok { similar_images := [⟨"C", "C", 0⟩], pages := [], max_score := 0 } ∧
    decodeFailEnv.fetch "C" = some [1] ∧
    score_pair decodeFailEnv.img [0] [1] =
      Except.error "PIL.UnidentifiedImageError: cannot identify image file" :=
  ⟨decodeFail_eval, rfl, rfl⟩

/-- C5 (amended): candidates whose bytes fail to fetch (or fetch empty) are
silently dropped from the ranking; candidates that fetch but fail to decode
are kept with score 0.0; for candidate URLs `[A,A,B]` with fetch successes
`[yes,yes,no]` the result is exactly `[A(scored)]` with `B` dropped and the
duplicate `A` suppressed. -/
theorem C5_fetch_drop_decode_zero (ienv : ImgEnv) (fetch : String → Option (List ℕ))
    (orig : List ℕ) (cands : List String) :
    (scoreLoop ienv fetch orig cands = cands.filterMap fun url =>
      match fetch url with
      | none => none
      | some cand =>
        if cand = [] then none
        else some ⟨url, url,
          match score_pair ienv orig cand with
          | .ok s => s
          | .error _ => 0⟩) ∧
    (∀ url, fetch url = none → ∀ item ∈ scoreLoop ienv fetch orig cands, item.url ≠ url) ∧
    search_and_score_image_bytes scenarioEnvAAB [0] 20 =
      Except.ok { similar_images := [⟨"A", "A", 100⟩], pages := [], max_score := 100 } := by
  refine ⟨scoreLoop_eq_filterMap ienv fetch orig cands, ?_, scenarioAAB_eval⟩
  intro url hnone item hitem heq
  rw [scoreLoop_eq_filterMap] at hitem
  obtain ⟨u, hu, hfu⟩ := List.mem_filterMap.mp hitem
  cases hf2 : fetch u with
  | none =>
    rw [hf2] at hfu
    exact Option.noConfusion hfu
  | some cand =>
    rw [hf2] at hfu
    simp only [] at hfu
    by_cases hc : cand = []
    · rw [if_pos hc] at hfu
      exact Option.noConfusion hfu
    · rw [if_neg hc] at hfu
      have hitem2 := Option.some.inj hfu
      have hu_url : u = url := by rw [← heq, ← hitem2]
      rw [hu_url, hnone] at hf2
      exact Option.noConfusion hf2

/-- Witness for C5: in the `[A,A,B]` scenario, `B` fails to fetch and no
returned item carries URL `B`. -/
theorem C5_fetch_drop_decode_zero_witness :
    scenarioEnvAAB.fetch "B" = none ∧
    (⟨"A", "A", (100:ℚ)⟩ : SimItem).url ≠ "B" :=
  ⟨rfl, (C5_fetch_drop_decode_zero scenarioEnvAAB.img scenarioEnvAAB.fetch [0]
      ["A", "B"]).2.1 "B" rfl ⟨"A", "A", 100⟩
      (by rw [scoreLoop_AAB]; exact List.mem_singleton.mpr rfl)⟩

/-! ## C8 — missing API keys -/

/-- C8 counterexample: with the vision key unset, the bytes-scoring path
raises `RuntimeError("VISION_API_KEY is not set")` instead of returning an
empty candidate set. -/
theorem C8_vision_key_counterexample :
    search_and_score_image_bytes noKeyEnv [0] 20 =
      Except.error "VISION_API_KEY is not set" ∧
    search_and_score_image_bytes noKeyEnv [0] 20 ≠
      Except.ok { similar_images := [], pages := [], max_score := 0 } := by
  refine ⟨rfl, ?_⟩
  intro h
  rw [(rfl : search_and_score_image_bytes noKeyEnv [0] 20 =
      Except.error "VISION_API_KEY is not set")] at h
  exact Except.noConfusion h

/-- C8 (amended): with the SerpAPI key unset, text search and
reverse-image search by URL return empty results without raising; with the
vision key unset, the bytes-scoring path raises; and the
ReverseImageSearchAdapter constructor raises when its SerpAPI key is
unset. -/
theorem C8_missing_key_behavior (backend : ℕ → PageData) (num : ℕ)
    (lens : String → LensData) (image_url : String) (maxr : ℕ)
    (env : WebEnv) (bytes : List ℕ) (hv : pyTruthy env.vision_key = false) :
    search_text none backend num = ([], 0) ∧
    search_image_by_url none lens image_url maxr =
      { similar_images := [], pages := [] } ∧
    search_and_score_image_bytes env bytes maxr =
      Except.error "VISION_API_KEY is not set" ∧
    reverseImageSearchInit none = Except.error "SERPAPI_KEY is required" := by
  refine ⟨rfl, rfl, ?_, rfl⟩
  rw [search_and_score_image_bytes, if_pos hv]

/-- Witness for C8: the no-key environment. -/
theorem C8_missing_key_behavior_witness :
    search_text none b10 20 = ([], 0) ∧
    search_and_score_image_bytes noKeyEnv [1] 20 =
      Except.error "VISION_API_KEY is not set" :=
  ⟨(C8_missing_key_behavior b10 20 dupLens "u" 20 noKeyEnv [1] rfl).1,
   (C8_missing_key_behavior b10 20 dupLens "u" 20 noKeyEnv [1] rfl).2.2.1⟩

/-! ## C10 — web-score endpoint -/

/-- C10: `check_image_webscore` always reports level `"manual_review"` and
adopts the collector's `max_score` (on the 0–100 scale) as the risk total
verbatim — it is never passed through `decide`, so the total can exceed 1.0
while the level stays `"manual_review"`. -/
theorem C10_webscore_constant_level (env : WebEnv) (bytes : List ℕ) (top_k : ℕ)
    (res : ScoreResult)
    (hres : search_and_score_image_bytes env bytes top_k = Except.ok res) :
    check_image_webscore env bytes top_k = Except.ok
      { risk := { total := res.max_score, level := "manual_review" },
        threshold_version := "vision+hash",
        similar_images := res.similar_images,
        evidence := res.pages.map fun p => ⟨"gcv_web_pages", 0, p⟩ } ∧
    (∃ payload, check_image_webscore scenarioEnvAAB [0] 20 = Except.ok payload ∧
      payload.risk.total > 1 ∧ payload.risk.level = "manual_review") := by
  constructor
  · rw [check_image_webscore, hres]
  · refine ⟨⟨⟨100, "manual_review"⟩, "vision+hash", [⟨"A", "A", 100⟩], []⟩, ?_,
      by norm_num, rfl⟩
    rw [check_image_webscore, scenarioAAB_eval]
    rfl

/-- Witness for C10: the `[A,A,B]` scenario evaluated end to end through the
endpoint. -/
theorem C10_webscore_constant_level_witness :
    check_image_webscore scenarioEnvAAB [0] 20 = Except.ok
      { risk := { total := 100, level := "manual_review" },
        threshold_version := "vision+hash",
        similar_images := [⟨"A", "A", 100⟩],
        evidence := [] } :=
  (C10_webscore_constant_level scenarioEnvAAB [0] 20
    { similar_images := [⟨"A", "A", 100⟩], pages := [], max_score := 100 }
    scenarioAAB_eval).1

end A15
